import Mathlib

/-!
Shallow embedding of `src/api/index.py` (a minimal Flask blog:
posts with optional media attachments, gated by a shared secret).

The relational store (`db.session` with the `Post` / `PostMedia`
models) is embedded as an explicit `DB` value; each request handler
(`add_post`, `edit_post`, `delete_post`) becomes a pure function from
the environment, the request and the incoming database to the outgoing
database, the rendered response and the list of flashed notices.
External collaborators (Flask routing, SQLAlchemy query execution,
Werkzeug, the Cloudinary client) are modelled only through their
observable effect on this state, as the spec instructs.
-/

namespace Pinkilily

/-- Row of the `Post` table (`src/api/index.py` lines 42-46):
integer primary key, `title`, `content`. -/
structure Post where
  id : Nat
  title : String
  content : String
deriving Repr, DecidableEq

/-- Row of the `PostMedia` table (lines 48-51): integer primary key,
`post_id` foreign key to `Post.id`, `media_url`. -/
structure PostMedia where
  id : Nat
  post_id : Nat
  media_url : String
deriving Repr, DecidableEq

/-- The relational store. `nextPostId` / `nextMediaId` embed the
autoincrementing primary keys the ORM assigns on insert. -/
structure DB where
  posts : List Post
  media : List PostMedia
  nextPostId : Nat
  nextMediaId : Nat
deriving Repr, DecidableEq

/-- One entry of `request.files.getlist('media')`: a Werkzeug
`FileStorage`. `filename` may be empty (no file chosen for that part);
`uploadOk` embeds whether the upload/save inside the per-file `try`
block succeeds or raises (lines 99-125 / 166-192). -/
structure MediaFile where
  filename : String
  uploadOk : Bool
deriving Repr, DecidableEq

/-- HTTP method of the request. -/
inductive Method where
  | get
  | post
deriving Repr, DecidableEq

/-- The parts of the inbound request the handlers read: the method,
`request.form.get('secret_key')` (`none` when the field is absent),
the `PostForm` text fields (an absent field reads as `""`), and
`request.files.getlist('media')`. -/
structure Request where
  method : Method
  secret_key : Option String
  title : String
  content : String
  files : List MediaFile
deriving Repr, DecidableEq

/-- The environment configuration the handlers read per request:
`os.environ.get('CLOUDINARY_CLOUD_NAME')` (lines 101 / 168). -/
structure Env where
  cloudinaryCloudName : Option String
deriving Repr, DecidableEq

/-- Messages passed to `flash(...)` by the handlers. -/
inductive Notice where
  | invalidSecret
  | validationErrors
  | invalidFileType (filename : String)
  | uploadFailed (filename : String)
  | postAdded
  | postUpdated
  | postDeleted
deriving Repr, DecidableEq

/-- The page the handler ends the request with. -/
inductive Response where
  | secretPrompt (action : String) (postId : Option Nat)
  | addForm
  | editForm (postId : Nat)
  | redirectIndex
  | notFound
deriving Repr, DecidableEq

/-- Line 40: `SECRET_KEY = 'moo'`. -/
def SECRET_KEY : String := "moo"

/-- Lines 64-70, `check_secret_key`: reads
`request.form.get('secret_key')` and compares it to `SECRET_KEY` with
`!=`; an absent field yields `None`, which compares unequal to any
string, so the check returns `False` exactly unless the submitted
value equals the configured secret. -/
def check_secret_key (secret : Option String) : Bool :=
  match secret with
  | some s => s == SECRET_KEY
  | none => false

/-- Python `filename.rsplit('.', 1)[1]` when `'.' in filename`: the
characters after the last `'.'`. Written over the character list. -/
def afterLastDot (s : String) : String :=
  ⟨(s.toList.reverse.takeWhile (fun c => c != '.')).reverse⟩

/-- Python `str.lower()` (ASCII case folding, character by character). -/
def pyLower (s : String) : String :=
  ⟨s.toList.map Char.toLower⟩

/-- Lines 61-62, `allowed_file`: `'.' in filename` and the part after
the last `'.'` (Python `filename.rsplit('.', 1)[1]`), lowercased, is
in `{png, jpg, jpeg, gif, mp4, webm}`. -/
def allowed_file (filename : String) : Bool :=
  filename.toList.contains '.' &&
    ["png", "jpg", "jpeg", "gif", "mp4", "webm"].contains
      (pyLower (afterLastDot filename))

/-- `filename.rsplit('.', 1)[0]` (lines 105 / 172): the filename with
its last extension removed (the whole string when it has no dot). -/
def stripLastExt (s : String) : String :=
  if s.toList.contains '.' then
    ⟨(((s.toList.reverse.dropWhile (fun c => c != '.')).drop 1)).reverse⟩
  else s

/-- Modelled from the spec: `werkzeug.utils.secure_filename` is an
external collaborator (out of scope per §1); modelled as keeping the
ASCII-safe characters of the name. No claim depends on its exact
output, only on where its result flows. -/
def secure_filename (s : String) : String :=
  ⟨s.toList.filter (fun c => c.isAlphanum || c == '.' || c == '_' || c == '-')⟩

/-- The URL the hosted provider returns for an upload
(`upload_result['secure_url']`, lines 103-108 / 170-175); the provider
is external, so the URL is modelled as a function of the `public_id`
it was given, `filename.rsplit('.', 1)[0]`. -/
def cloudinary_url (filename : String) : String :=
  "https://res.cloudinary.com/" ++ stripLastExt filename

/-- The URL synthesized by the local-filesystem fallback,
`url_for('static', filename='uploads/' + filename, _external=True)`
(lines 117 / 184). -/
def local_static_url (filename : String) : String :=
  "http://localhost:5000/static/uploads/" ++ filename

/-- Lines 101-118 / 168-185: the storage backend used for one file is
chosen by whether `CLOUDINARY_CLOUD_NAME` is set; the resulting
persisted URL. -/
def upload_url (env : Env) (filename : String) : String :=
  if env.cloudinaryCloudName.isSome then cloudinary_url filename
  else local_static_url filename

/-- Python `str.strip()`: the string with leading and trailing
whitespace removed. -/
def pyStrip (s : String) : String :=
  ⟨((s.toList.dropWhile Char.isWhitespace).reverse.dropWhile
      Char.isWhitespace).reverse⟩

/-- `wtforms.validators.DataRequired` on a text field: fails when the
submitted value is missing, empty, or whitespace-only
(`not field.data or not field.data.strip()`). -/
def dataRequired (s : String) : Bool :=
  !(pyStrip s == "")

/-- `form.validate_on_submit()` for `PostForm` (lines 53-56): `title`
and `content` both carry `DataRequired`; the `media` file field has no
validator. -/
def validate (req : Request) : Bool :=
  dataRequired req.title && dataRequired req.content

/-- The per-file body of the upload loop, identical in `add_post`
(lines 97-128) and `edit_post` (lines 164-195): a falsy file (empty
filename) is skipped with no flash; a file with a disallowed extension
is skipped with an invalid-type flash; otherwise the file is uploaded
to the backend selected from the environment, yielding the URL to
persist, or — when the upload raises — an upload-failed flash and no
URL. Returns the URL to persist (if any) and the flashed notices. -/
def processFile (env : Env) (f : MediaFile) : Option String × List Notice :=
  if f.filename != "" && allowed_file f.filename then
    let filename := secure_filename f.filename
    if f.uploadOk then (some (upload_url env filename), [])
    else (none, [Notice.uploadFailed filename])
  else if f.filename != "" then (none, [Notice.invalidFileType f.filename])
  else (none, [])

/-- The upload loop over `request.files.getlist('media')` (lines
97-128 / 164-195): each file that yields a URL becomes a `PostMedia`
row attached to post `pid`, with autoincremented ids starting at
`startId`; notices accumulate in file order. -/
def uploadLoop (env : Env) (pid : Nat) (startId : Nat) :
    List MediaFile → List PostMedia × List Notice
  | [] => ([], [])
  | f :: fs =>
    match (processFile env f).1 with
    | some url =>
      let rest := uploadLoop env pid (startId + 1) fs
      (⟨startId, pid, url⟩ :: rest.1, (processFile env f).2 ++ rest.2)
    | none =>
      let rest := uploadLoop env pid startId fs
      (rest.1, (processFile env f).2 ++ rest.2)

/-- The files of a submission that end up persisted: truthy filename,
allowed extension, successful upload (the `some` branch of
`processFile`). -/
def successfulFiles (env : Env) (files : List MediaFile) : List MediaFile :=
  files.filter (fun f => (processFile env f).1.isSome)

/-- Lines 82-141, `add_post`. On GET, renders the form. On POST:
secret gate (line 86-87), form validation (88, 138-140), then the new
`Post` is added and the upload loop runs, and the session commits. -/
def add_post (env : Env) (req : Request) (db : DB) :
    DB × Response × List Notice :=
  match req.method with
  | .get => (db, .addForm, [])
  | .post =>
    if !check_secret_key req.secret_key then
      (db, .secretPrompt "add" none, [Notice.invalidSecret])
    else if validate req then
      let pid := db.nextPostId
      let newPost : Post := ⟨pid, req.title, req.content⟩
      let rl := uploadLoop env pid db.nextMediaId req.files
      ({ posts := db.posts ++ [newPost]
         media := db.media ++ rl.1
         nextPostId := pid + 1
         nextMediaId := db.nextMediaId + rl.1.length },
       .redirectIndex, rl.2 ++ [Notice.postAdded])
    else
      (db, .addForm, [Notice.validationErrors])

/-- `Post.query.get(id)` / `get_or_404`: the row of the `Post` table
with the given primary key, if any. -/
def getPost (db : DB) (pid : Nat) : Option Post :=
  db.posts.find? (fun p => p.id == pid)

/-- Lines 143-208, `edit_post`. `get_or_404` (146); on GET, renders
the pre-filled form. On POST: secret gate (153-154), validation (155,
205-207); on success the text fields are updated (157-158) and — only
when the submitted file list is nonempty and some file has a non-empty
filename (161) — all prior `PostMedia` rows of the post are deleted
(163) and the upload loop runs; then the session commits. -/
def edit_post (env : Env) (postId : Nat) (req : Request) (db : DB) :
    DB × Response × List Notice :=
  match getPost db postId with
  | none => (db, .notFound, [])
  | some post =>
    match req.method with
    | .get => (db, .editForm postId, [])
    | .post =>
      if !check_secret_key req.secret_key then
        (db, .secretPrompt "edit" (some postId), [Notice.invalidSecret])
      else if validate req then
        let post' : Post := { post with title := req.title, content := req.content }
        let posts' := db.posts.map (fun p => if p.id == postId then post' else p)
        if !req.files.isEmpty && req.files.any (fun f => f.filename != "") then
          let kept := db.media.filter (fun m => m.post_id != postId)
          let rl := uploadLoop env postId db.nextMediaId req.files
          ({ posts := posts'
             media := kept ++ rl.1
             nextPostId := db.nextPostId
             nextMediaId := db.nextMediaId + rl.1.length },
           .redirectIndex, rl.2 ++ [Notice.postUpdated])
        else
          ({ db with posts := posts' }, .redirectIndex, [Notice.postUpdated])
      else
        (db, .editForm postId, [Notice.validationErrors])

/-- Lines 210-236, `delete_post`. `get_or_404` (214); GET renders the
confirmation/secret prompt (232); POST: secret gate (218-220), then
`db.session.delete(post)` with the `cascade='all, delete-orphan'`
relationship (line 46) removes the post and every `PostMedia` row
owned by it, and commits. -/
def delete_post (postId : Nat) (req : Request) (db : DB) :
    DB × Response × List Notice :=
  match getPost db postId with
  | none => (db, .notFound, [])
  | some _ =>
    match req.method with
    | .get => (db, .secretPrompt "delete" (some postId), [])
    | .post =>
      if !check_secret_key req.secret_key then
        (db, .secretPrompt "delete" (some postId), [Notice.invalidSecret])
      else
        ({ posts := db.posts.filter (fun p => p.id != postId)
           media := db.media.filter (fun m => m.post_id != postId)
           nextPostId := db.nextPostId
           nextMediaId := db.nextMediaId },
         .redirectIndex, [Notice.postDeleted])

/-- Well-formedness of the store as the ORM maintains it: primary keys
are below the autoincrement counters, and every `PostMedia.post_id`
references an existing post. -/
def DB.wf (db : DB) : Prop :=
  (∀ p ∈ db.posts, p.id < db.nextPostId) ∧
  (∀ m ∈ db.media, m.id < db.nextMediaId) ∧
  (∀ m ∈ db.media, ∃ p ∈ db.posts, m.post_id = p.id)

instance (db : DB) : Decidable db.wf := by
  unfold DB.wf
  infer_instance

/-! ### Helper lemmas about the gate, the per-file step and the upload loop -/

theorem check_secret_key_eq_false {s : Option String}
    (h : s ≠ some SECRET_KEY) : check_secret_key s = false := by
  cases s with
  | none => rfl
  | some v =>
    simp only [check_secret_key, beq_eq_false_iff_ne, ne_eq]
    intro hv
    exact h (by rw [hv])

theorem processFile_fst_some {env : Env} {f : MediaFile} {url : String}
    (h : (processFile env f).1 = some url) :
    url = upload_url env (secure_filename f.filename) ∧
    f.filename ≠ "" ∧ allowed_file f.filename = true ∧ f.uploadOk = true := by
  unfold processFile at h
  split at h
  · next hc =>
    split at h
    · next hu =>
      simp only at h
      have hc' : f.filename ≠ "" ∧ allowed_file f.filename = true := by
        simpa using hc
      exact ⟨(Option.some.inj h).symm, hc'.1, hc'.2, hu⟩
    · simp at h
  · split at h <;> simp at h

theorem processFile_empty {env : Env} {f : MediaFile}
    (h : f.filename = "") : processFile env f = (none, []) := by
  simp [processFile, h]

theorem processFile_disallowed {env : Env} {f : MediaFile}
    (hn : f.filename ≠ "") (ha : allowed_file f.filename = false) :
    processFile env f = (none, [Notice.invalidFileType f.filename]) := by
  simp [processFile, hn, ha]

theorem processFile_upload_failed {env : Env} {f : MediaFile}
    (hn : f.filename ≠ "") (ha : allowed_file f.filename = true)
    (hu : f.uploadOk = false) :
    processFile env f = (none, [Notice.uploadFailed (secure_filename f.filename)]) := by
  simp [processFile, hn, ha, hu]

theorem uploadLoop_cons_some {env : Env} {pid s : Nat} {f : MediaFile}
    {fs : List MediaFile} {url : String} (h : (processFile env f).1 = some url) :
    uploadLoop env pid s (f :: fs) =
      (⟨s, pid, url⟩ :: (uploadLoop env pid (s + 1) fs).1,
       (processFile env f).2 ++ (uploadLoop env pid (s + 1) fs).2) := by
  rw [uploadLoop, h]

theorem uploadLoop_cons_none {env : Env} {pid s : Nat} {f : MediaFile}
    {fs : List MediaFile} (h : (processFile env f).1 = none) :
    uploadLoop env pid s (f :: fs) =
      ((uploadLoop env pid s fs).1,
       (processFile env f).2 ++ (uploadLoop env pid s fs).2) := by
  rw [uploadLoop, h]

theorem successfulFiles_cons_some {env : Env} {f : MediaFile}
    {fs : List MediaFile} {url : String} (h : (processFile env f).1 = some url) :
    successfulFiles env (f :: fs) = f :: successfulFiles env fs := by
  simp [successfulFiles, List.filter_cons, h]

theorem successfulFiles_cons_none {env : Env} {f : MediaFile}
    {fs : List MediaFile} (h : (processFile env f).1 = none) :
    successfulFiles env (f :: fs) = successfulFiles env fs := by
  simp [successfulFiles, List.filter_cons, h]

theorem uploadLoop_fst_mem {env : Env} {pid : Nat} {r : PostMedia} :
    ∀ {files : List MediaFile} {s : Nat}, r ∈ (uploadLoop env pid s files).1 →
      r.post_id = pid ∧ s ≤ r.id ∧
      ∃ f ∈ files, r.media_url = upload_url env (secure_filename f.filename) := by
  intro files
  induction files with
  | nil => intro s h; simp [uploadLoop] at h
  | cons f fs ih =>
    intro s h
    cases hpf : (processFile env f).1 with
    | some url =>
      rw [uploadLoop_cons_some hpf] at h
      rcases List.mem_cons.mp h with rfl | h'
      · exact ⟨rfl, Nat.le_refl _, f, List.mem_cons_self .., (processFile_fst_some hpf).1⟩
      · obtain ⟨h1, h2, g, hg, hurl⟩ := ih h'
        exact ⟨h1, Nat.le_of_succ_le h2, g, List.mem_cons_of_mem _ hg, hurl⟩
    | none =>
      rw [uploadLoop_cons_none hpf] at h
      obtain ⟨h1, h2, g, hg, hurl⟩ := ih h
      exact ⟨h1, h2, g, List.mem_cons_of_mem _ hg, hurl⟩

theorem uploadLoop_length {env : Env} {pid : Nat} :
    ∀ {files : List MediaFile} {s : Nat},
      (uploadLoop env pid s files).1.length = (successfulFiles env files).length := by
  intro files
  induction files with
  | nil => intro s; simp [uploadLoop, successfulFiles]
  | cons f fs ih =>
    intro s
    cases hpf : (processFile env f).1 with
    | some url =>
      rw [uploadLoop_cons_some hpf, successfulFiles_cons_some hpf]
      simp [ih]
    | none =>
      rw [uploadLoop_cons_none hpf, successfulFiles_cons_none hpf]
      exact ih

theorem uploadLoop_urls {env : Env} {pid : Nat} :
    ∀ {files : List MediaFile} {s : Nat},
      (uploadLoop env pid s files).1.map (fun r => r.media_url)
        = (successfulFiles env files).map
            (fun f => upload_url env (secure_filename f.filename)) := by
  intro files
  induction files with
  | nil => intro s; simp [uploadLoop, successfulFiles]
  | cons f fs ih =>
    intro s
    cases hpf : (processFile env f).1 with
    | some url =>
      rw [uploadLoop_cons_some hpf, successfulFiles_cons_some hpf]
      simp only [List.map_cons]
      rw [ih, (processFile_fst_some hpf).1]
    | none =>
      rw [uploadLoop_cons_none hpf, successfulFiles_cons_none hpf]
      exact ih

theorem uploadLoop_snd_mem {env : Env} {pid : Nat} {n : Notice} {f : MediaFile} :
    ∀ {files : List MediaFile} {s : Nat}, f ∈ files → n ∈ (processFile env f).2 →
      n ∈ (uploadLoop env pid s files).2 := by
  intro files
  induction files with
  | nil => intro s hf; cases hf
  | cons g gs ih =>
    intro s hf hn
    cases hpf : (processFile env g).1 with
    | some url =>
      rw [uploadLoop_cons_some hpf]
      rcases List.mem_cons.mp hf with rfl | hf'
      · exact List.mem_append.mpr (Or.inl hn)
      · exact List.mem_append.mpr (Or.inr (ih hf' hn))
    | none =>
      rw [uploadLoop_cons_none hpf]
      rcases List.mem_cons.mp hf with rfl | hf'
      · exact List.mem_append.mpr (Or.inl hn)
      · exact List.mem_append.mpr (Or.inr (ih hf' hn))

theorem uploadLoop_filter_post_id {env : Env} {pid s : Nat}
    {files : List MediaFile} :
    (uploadLoop env pid s files).1.filter (fun m => m.post_id == pid)
      = (uploadLoop env pid s files).1 := by
  rw [List.filter_eq_self]
  intro r hr
  have h := (uploadLoop_fst_mem hr).1
  simp [h]

theorem filter_ne_filter_eq_nil (l : List PostMedia) (pid : Nat) :
    (l.filter (fun m => m.post_id != pid)).filter (fun m => m.post_id == pid) = [] := by
  rw [List.filter_eq_nil_iff]
  intro m hm
  have h2 := (List.mem_filter.mp hm).2
  simp only [bne_iff_ne, ne_eq] at h2
  simp [h2]

theorem wf_media_filter_nextPostId {db : DB} (hwf : db.wf) :
    db.media.filter (fun m => m.post_id == db.nextPostId) = [] := by
  rw [List.filter_eq_nil_iff]
  intro m hm
  obtain ⟨p, hp, hpm⟩ := hwf.2.2 m hm
  have hlt := hwf.1 p hp
  simp only [beq_iff_eq, hpm]
  omega

theorem edit_guard_true {files : List MediaFile}
    (h : files.any (fun f => f.filename != "") = true) :
    (!files.isEmpty && files.any (fun f => f.filename != "")) = true := by
  cases files with
  | nil => simp at h
  | cons f fs => simp [h, List.isEmpty]

/-! ### Branch characterizations of the three handlers -/

theorem add_post_get {env : Env} {req : Request} {db : DB}
    (hm : req.method = .get) :
    add_post env req db = (db, .addForm, []) := by
  unfold add_post; rw [hm]

theorem add_post_denied {env : Env} {req : Request} {db : DB}
    (hm : req.method = .post) (hs : check_secret_key req.secret_key = false) :
    add_post env req db = (db, .secretPrompt "add" none, [Notice.invalidSecret]) := by
  unfold add_post; rw [hm]; simp [hs]

theorem add_post_invalid {env : Env} {req : Request} {db : DB}
    (hm : req.method = .post) (hs : check_secret_key req.secret_key = true)
    (hv : validate req = false) :
    add_post env req db = (db, .addForm, [Notice.validationErrors]) := by
  unfold add_post; rw [hm]; simp [hs, hv]

theorem add_post_success {env : Env} {req : Request} {db : DB}
    (hm : req.method = .post) (hs : check_secret_key req.secret_key = true)
    (hv : validate req = true) :
    add_post env req db =
      ({ posts := db.posts ++ [⟨db.nextPostId, req.title, req.content⟩]
         media := db.media ++ (uploadLoop env db.nextPostId db.nextMediaId req.files).1
         nextPostId := db.nextPostId + 1
         nextMediaId := db.nextMediaId
           + (uploadLoop env db.nextPostId db.nextMediaId req.files).1.length },
       .redirectIndex,
       (uploadLoop env db.nextPostId db.nextMediaId req.files).2
         ++ [Notice.postAdded]) := by
  unfold add_post; rw [hm]; simp [hs, hv]

theorem edit_post_not_found {env : Env} {postId : Nat} {req : Request} {db : DB}
    (hp : getPost db postId = none) :
    edit_post env postId req db = (db, .notFound, []) := by
  unfold edit_post; rw [hp]

theorem edit_post_get {env : Env} {postId : Nat} {req : Request} {db : DB}
    {post : Post} (hp : getPost db postId = some post) (hm : req.method = .get) :
    edit_post env postId req db = (db, .editForm postId, []) := by
  unfold edit_post; rw [hp, hm]

theorem edit_post_denied {env : Env} {postId : Nat} {req : Request} {db : DB}
    {post : Post} (hp : getPost db postId = some post) (hm : req.method = .post)
    (hs : check_secret_key req.secret_key = false) :
    edit_post env postId req db
      = (db, .secretPrompt "edit" (some postId), [Notice.invalidSecret]) := by
  unfold edit_post; rw [hp, hm]; simp [hs]

theorem edit_post_invalid {env : Env} {postId : Nat} {req : Request} {db : DB}
    {post : Post} (hp : getPost db postId = some post) (hm : req.method = .post)
    (hs : check_secret_key req.secret_key = true) (hv : validate req = false) :
    edit_post env postId req db
      = (db, .editForm postId, [Notice.validationErrors]) := by
  unfold edit_post; rw [hp, hm]; simp [hs, hv]

theorem edit_post_keep_media {env : Env} {postId : Nat} {req : Request} {db : DB}
    {post : Post} (hp : getPost db postId = some post) (hm : req.method = .post)
    (hs : check_secret_key req.secret_key = true) (hv : validate req = true)
    (hany : req.files.any (fun f => f.filename != "") = false) :
    edit_post env postId req db =
      ({ db with posts := db.posts.map (fun p => if p.id == postId then
           { post with title := req.title, content := req.content } else p) },
       .redirectIndex, [Notice.postUpdated]) := by
  unfold edit_post; rw [hp, hm]; simp [hs, hv, hany]

theorem edit_post_replace {env : Env} {postId : Nat} {req : Request} {db : DB}
    {post : Post} (hp : getPost db postId = some post) (hm : req.method = .post)
    (hs : check_secret_key req.secret_key = true) (hv : validate req = true)
    (hany : req.files.any (fun f => f.filename != "") = true) :
    edit_post env postId req db =
      ({ posts := db.posts.map (fun p => if p.id == postId then
           { post with title := req.title, content := req.content } else p)
         media := db.media.filter (fun m => m.post_id != postId)
           ++ (uploadLoop env postId db.nextMediaId req.files).1
         nextPostId := db.nextPostId
         nextMediaId := db.nextMediaId
           + (uploadLoop env postId db.nextMediaId req.files).1.length },
       .redirectIndex,
       (uploadLoop env postId db.nextMediaId req.files).2
         ++ [Notice.postUpdated]) := by
  unfold edit_post; rw [hp, hm]; simp [hs, hv, edit_guard_true hany]

theorem delete_post_not_found {postId : Nat} {req : Request} {db : DB}
    (hp : getPost db postId = none) :
    delete_post postId req db = (db, .notFound, []) := by
  unfold delete_post; rw [hp]

theorem delete_post_denied {postId : Nat} {req : Request} {db : DB}
    {post : Post} (hp : getPost db postId = some post) (hm : req.method = .post)
    (hs : check_secret_key req.secret_key = false) :
    delete_post postId req db
      = (db, .secretPrompt "delete" (some postId), [Notice.invalidSecret]) := by
  unfold delete_post; rw [hp, hm]; simp [hs]

theorem delete_post_success {postId : Nat} {req : Request} {db : DB}
    {post : Post} (hp : getPost db postId = some post) (hm : req.method = .post)
    (hs : check_secret_key req.secret_key = true) :
    delete_post postId req db =
      ({ posts := db.posts.filter (fun p => p.id != postId)
         media := db.media.filter (fun m => m.post_id != postId)
         nextPostId := db.nextPostId
         nextMediaId := db.nextMediaId },
       .redirectIndex, [Notice.postDeleted]) := by
  unfold delete_post; rw [hp, hm]; simp [hs]

/-! ### The claims -/

/-- Claim C1: for every mutating POST request (add, edit, delete), if the
submitted secret does not exactly equal the configured secret, no `Post`
or `PostMedia` row is created, modified or deleted — the database is
returned unchanged whatever the rest of the payload — and the handler
re-renders the secret prompt. -/
theorem C1_wrong_secret_no_mutation (env : Env) (req : Request) (db : DB)
    (pid : Nat) (hm : req.method = .post)
    (hs : req.secret_key ≠ some SECRET_KEY) :
    (add_post env req db).1 = db ∧
    (add_post env req db).2.1 = Response.secretPrompt "add" none ∧
    (edit_post env pid req db).1 = db ∧
    (delete_post pid req db).1 = db ∧
    (∀ post, getPost db pid = some post →
      (edit_post env pid req db).2.1 = Response.secretPrompt "edit" (some pid) ∧
      (delete_post pid req db).2.1 = Response.secretPrompt "delete" (some pid)) := by
  have hf := check_secret_key_eq_false hs
  refine ⟨?_, ?_, ?_, ?_, ?_⟩
  · rw [add_post_denied hm hf]
  · rw [add_post_denied hm hf]
  · cases hp : getPost db pid with
    | none => rw [edit_post_not_found hp]
    | some post => rw [edit_post_denied hp hm hf]
  · cases hp : getPost db pid with
    | none => rw [delete_post_not_found hp]
    | some post => rw [delete_post_denied hp hm hf]
  · intro post hp
    rw [edit_post_denied hp hm hf, delete_post_denied hp hm hf]
    exact ⟨rfl, rfl⟩

theorem C1_witness :
    (add_post ⟨none⟩ ⟨Method.post, some "wrong", "T", "C", []⟩
        ⟨[⟨1, "t", "c"⟩], [⟨1, 1, "u"⟩], 2, 2⟩).1
      = ⟨[⟨1, "t", "c"⟩], [⟨1, 1, "u"⟩], 2, 2⟩ :=
  (C1_wrong_secret_no_mutation ⟨none⟩ ⟨Method.post, some "wrong", "T", "C", []⟩
    ⟨[⟨1, "t", "c"⟩], [⟨1, 1, "u"⟩], 2, 2⟩ 1 rfl (by decide)).1

/-- Claim C2 as stated is false on the code: with `M = 0` (a POST edit
whose file list is empty), the media-replacement branch is skipped —
the guard at line 161 requires a supplied file with a non-empty
filename — so the prior `PostMedia` row of post 1 survives: one row
remains where the claim demands zero. -/
theorem C2_counterexample :
    ¬ (((edit_post ⟨none⟩ 1 ⟨Method.post, some "moo", "T", "C", []⟩
          ⟨[⟨1, "t", "c"⟩], [⟨1, 1, "u"⟩], 2, 2⟩).1.media.filter
            (fun m => m.post_id == 1)).length = 0) := by
  decide

/-- Claim C2 (amended): on a POST edit of an existing post with correct
secret and valid fields, if at least one supplied file has a non-empty
filename, every prior `PostMedia` row of the post is removed and the
rows left for the post are exactly those of the files that pass the
extension check and upload successfully — so exactly M rows when all M
supplied files do; if no supplied file has a non-empty filename (in
particular when M = 0), the post's media rows are left unchanged. -/
theorem C2_replace_media (env : Env) (req : Request) (db : DB)
    (postId : Nat) (post : Post) (hwf : db.wf)
    (hp : getPost db postId = some post) (hm : req.method = .post)
    (hs : check_secret_key req.secret_key = true) (hv : validate req = true) :
    (req.files.any (fun f => f.filename != "") = true →
      (∀ m ∈ db.media, m.post_id = postId →
        m ∉ (edit_post env postId req db).1.media) ∧
      ((edit_post env postId req db).1.media.filter
          (fun m => m.post_id == postId)).length
        = (successfulFiles env req.files).length ∧
      ((∀ f ∈ req.files, (processFile env f).1.isSome = true) →
        ((edit_post env postId req db).1.media.filter
            (fun m => m.post_id == postId)).length = req.files.length)) ∧
    (req.files.any (fun f => f.filename != "") = false →
      (edit_post env postId req db).1.media = db.media) := by
  constructor
  · intro hany
    rw [edit_post_replace hp hm hs hv hany]
    dsimp only
    have hflt : (db.media.filter (fun m => m.post_id != postId)
          ++ (uploadLoop env postId db.nextMediaId req.files).1).filter
            (fun m => m.post_id == postId)
        = (uploadLoop env postId db.nextMediaId req.files).1 := by
      rw [List.filter_append, filter_ne_filter_eq_nil, uploadLoop_filter_post_id,
        List.nil_append]
    refine ⟨?_, ?_, ?_⟩
    · intro m hmem hmp hcon
      rcases List.mem_append.mp hcon with hk | hr
      · have h2 := (List.mem_filter.mp hk).2
        simp [hmp] at h2
      · have h2 := (uploadLoop_fst_mem hr).2.1
        have hlt := hwf.2.1 m hmem
        omega
    · rw [hflt, uploadLoop_length]
    · intro hall
      rw [hflt, uploadLoop_length]
      have hsf : successfulFiles env req.files = req.files := by
        unfold successfulFiles
        rw [List.filter_eq_self]
        exact hall
      rw [hsf]
  · intro hany
    rw [edit_post_keep_media hp hm hs hv hany]

theorem C2_witness :
    ((edit_post ⟨none⟩ 1 ⟨Method.post, some "moo", "T", "C", [⟨"a.png", true⟩]⟩
        ⟨[⟨1, "t", "c"⟩], [⟨1, 1, "u"⟩], 2, 2⟩).1.media.filter
          (fun m => m.post_id == 1)).length
      = [MediaFile.mk "a.png" true].length :=
  ((C2_replace_media ⟨none⟩ ⟨Method.post, some "moo", "T", "C", [⟨"a.png", true⟩]⟩
      ⟨[⟨1, "t", "c"⟩], [⟨1, 1, "u"⟩], 2, 2⟩ 1 ⟨1, "t", "c"⟩ (by decide)
      (by decide) rfl (by decide) (by decide)).1 (by decide)).2.2
    (by decide)

/-- Claim C3: in an accepted add or edit submission, a file whose
extension is outside the allow-list never becomes a `PostMedia` row
(it is not among the successfully processed files), while the submitted
title and content persist as a `Post` row and the media rows created
for the post are exactly those of the files that do pass the extension
check and upload — sibling valid files persist despite the rejected
one. -/
theorem C3_disallowed_extension_per_file (env : Env) (req : Request)
    (db : DB) (postId : Nat) (post : Post) (hwf : db.wf)
    (hm : req.method = .post) (hs : check_secret_key req.secret_key = true)
    (hv : validate req = true) :
    (∀ f ∈ req.files, allowed_file f.filename = false →
      f ∉ successfulFiles env req.files) ∧
    (Post.mk db.nextPostId req.title req.content ∈ (add_post env req db).1.posts ∧
     ((add_post env req db).1.media.filter
         (fun m => m.post_id == db.nextPostId)).map (fun m => m.media_url)
       = (successfulFiles env req.files).map
           (fun f => upload_url env (secure_filename f.filename))) ∧
    (getPost db postId = some post →
      req.files.any (fun f => f.filename != "") = true →
      Post.mk postId req.title req.content ∈ (edit_post env postId req db).1.posts ∧
      ((edit_post env postId req db).1.media.filter
          (fun m => m.post_id == postId)).map (fun m => m.media_url)
        = (successfulFiles env req.files).map
            (fun f => upload_url env (secure_filename f.filename))) := by
  refine ⟨?_, ⟨?_, ?_⟩, ?_⟩
  · intro f hf ha hcon
    have h2 := (List.mem_filter.mp hcon).2
    by_cases hn : f.filename = ""
    · rw [processFile_empty hn] at h2
      simp at h2
    · rw [processFile_disallowed hn ha] at h2
      simp at h2
  · rw [add_post_success hm hs hv]
    simp
  · rw [add_post_success hm hs hv]
    dsimp only
    rw [List.filter_append, wf_media_filter_nextPostId hwf,
      uploadLoop_filter_post_id, List.nil_append, uploadLoop_urls]
  · intro hp hany
    have hid : post.id = postId := by
      have := List.find?_some hp
      simpa using this
    constructor
    · rw [edit_post_replace hp hm hs hv hany]
      dsimp only
      refine List.mem_map.mpr ⟨post, List.mem_of_find?_eq_some hp, ?_⟩
      simp [hid]
    · rw [edit_post_replace hp hm hs hv hany]
      dsimp only
      rw [List.filter_append, filter_ne_filter_eq_nil,
        uploadLoop_filter_post_id, List.nil_append, uploadLoop_urls]

theorem C3_witness :
    ((add_post ⟨none⟩
        ⟨Method.post, some "moo", "T", "C", [⟨"a.png", true⟩, ⟨"b.exe", true⟩]⟩
        ⟨[], [], 1, 1⟩).1.media.filter (fun m => m.post_id == 1)).map
          (fun m => m.media_url)
      = (successfulFiles ⟨none⟩ [⟨"a.png", true⟩, ⟨"b.exe", true⟩]).map
          (fun f => upload_url ⟨none⟩ (secure_filename f.filename)) :=
  (C3_disallowed_extension_per_file ⟨none⟩
    ⟨Method.post, some "moo", "T", "C", [⟨"a.png", true⟩, ⟨"b.exe", true⟩]⟩
    ⟨[], [], 1, 1⟩ 1 ⟨1, "t", "c"⟩ (by decide) rfl (by decide) (by decide)).2.1.2

/-- Claim C4: when the upload of one attached (allowed) file fails, the
per-file step yields no URL — so no `PostMedia` row references the
failed upload — an upload-failed notice is flashed for that file, and
the add submission still succeeds: the `Post` row is created and the
handler redirects to the index. -/
theorem C4_upload_failure_recovered (env : Env) (req : Request) (db : DB)
    (f : MediaFile) (hm : req.method = .post)
    (hs : check_secret_key req.secret_key = true) (hv : validate req = true)
    (hf : f ∈ req.files) (hn : f.filename ≠ "")
    (ha : allowed_file f.filename = true) (hu : f.uploadOk = false) :
    processFile env f = (none, [Notice.uploadFailed (secure_filename f.filename)]) ∧
    f ∉ successfulFiles env req.files ∧
    Post.mk db.nextPostId req.title req.content ∈ (add_post env req db).1.posts ∧
    Notice.uploadFailed (secure_filename f.filename) ∈ (add_post env req db).2.2 ∧
    (add_post env req db).2.1 = Response.redirectIndex := by
  have hpf : processFile env f
      = (none, [Notice.uploadFailed (secure_filename f.filename)]) :=
    processFile_upload_failed hn ha hu
  refine ⟨hpf, ?_, ?_, ?_, ?_⟩
  · intro hcon
    have h2 := (List.mem_filter.mp hcon).2
    rw [hpf] at h2
    simp at h2
  · rw [add_post_success hm hs hv]
    simp
  · rw [add_post_success hm hs hv]
    dsimp only
    refine List.mem_append.mpr (Or.inl ?_)
    exact uploadLoop_snd_mem hf (by rw [hpf]; exact List.mem_singleton.mpr rfl)
  · rw [add_post_success hm hs hv]

theorem C4_witness :
    Notice.uploadFailed (secure_filename "c.gif")
      ∈ (add_post ⟨none⟩ ⟨Method.post, some "moo", "T", "C", [⟨"c.gif", false⟩]⟩
          ⟨[], [], 1, 1⟩).2.2 :=
  (C4_upload_failure_recovered ⟨none⟩
    ⟨Method.post, some "moo", "T", "C", [⟨"c.gif", false⟩]⟩ ⟨[], [], 1, 1⟩
    ⟨"c.gif", false⟩ rfl (by decide) (by decide) (by decide) (by decide)
    (by decide) rfl).2.2.2.1

/-- Claim C7: the storage backend is selected purely from configuration
presence — `upload_url` depends on the environment only through whether
the provider credential is set — and every `PostMedia` row created
within a single add or edit request carries a URL produced by
`upload_url` with that one request environment, so all files of a
request use the same backend. -/
theorem C7_single_backend_per_request (env : Env) (req : Request) (db : DB)
    (postId : Nat) :
    (∀ e₁ e₂ : Env, ∀ s : String,
      e₁.cloudinaryCloudName.isSome = e₂.cloudinaryCloudName.isSome →
      upload_url e₁ s = upload_url e₂ s) ∧
    (∀ r ∈ (add_post env req db).1.media, r ∉ db.media →
      ∃ f ∈ req.files, r.media_url = upload_url env (secure_filename f.filename)) ∧
    (∀ r ∈ (edit_post env postId req db).1.media, r ∉ db.media →
      ∃ f ∈ req.files, r.media_url = upload_url env (secure_filename f.filename)) := by
  refine ⟨?_, ?_, ?_⟩
  · intro e₁ e₂ s h
    unfold upload_url
    rw [h]
  · intro r hr hnew
    cases hmeth : req.method with
    | get =>
      rw [add_post_get hmeth] at hr
      exact absurd hr hnew
    | post =>
      cases hsec : check_secret_key req.secret_key with
      | false =>
        rw [add_post_denied hmeth hsec] at hr
        exact absurd hr hnew
      | true =>
        cases hval : validate req with
        | false =>
          rw [add_post_invalid hmeth hsec hval] at hr
          exact absurd hr hnew
        | true =>
          rw [add_post_success hmeth hsec hval] at hr
          dsimp only at hr
          rcases List.mem_append.mp hr with h | h
          · exact absurd h hnew
          · exact (uploadLoop_fst_mem h).2.2
  · intro r hr hnew
    cases hp : getPost db postId with
    | none =>
      rw [edit_post_not_found hp] at hr
      exact absurd hr hnew
    | some post =>
      cases hmeth : req.method with
      | get =>
        rw [edit_post_get hp hmeth] at hr
        exact absurd hr hnew
      | post =>
        cases hsec : check_secret_key req.secret_key with
        | false =>
          rw [edit_post_denied hp hmeth hsec] at hr
          exact absurd hr hnew
        | true =>
          cases hval : validate req with
          | false =>
            rw [edit_post_invalid hp hmeth hsec hval] at hr
            exact absurd hr hnew
          | true =>
            cases hany : req.files.any (fun f => f.filename != "") with
            | false =>
              rw [edit_post_keep_media hp hmeth hsec hval hany] at hr
              exact absurd hr hnew
            | true =>
              rw [edit_post_replace hp hmeth hsec hval hany] at hr
              dsimp only at hr
              rcases List.mem_append.mp hr with h | h
              · exact absurd (List.mem_of_mem_filter h) hnew
              · exact (uploadLoop_fst_mem h).2.2

theorem C7_witness :
    ∃ f ∈ [MediaFile.mk "a.png" true],
      (PostMedia.mk 1 1 "https://res.cloudinary.com/a").media_url
        = upload_url ⟨some "cn"⟩ (secure_filename f.filename) :=
  (C7_single_backend_per_request ⟨some "cn"⟩
    ⟨Method.post, some "moo", "T", "C", [⟨"a.png", true⟩]⟩ ⟨[], [], 1, 1⟩ 1).2.1
    ⟨1, 1, "https://res.cloudinary.com/a"⟩ (by decide) (by decide)

/-- Claim C8: on a POST edit of an existing post with correct secret and
valid fields, when files are supplied (some with a non-empty filename)
but every supplied file is rejected by the extension check or fails to
upload, the prior `PostMedia` rows of the post are still all deleted
and none are inserted: the post ends the edit with zero media rows. -/
theorem C8_all_files_rejected_edit (env : Env) (req : Request) (db : DB)
    (postId : Nat) (post : Post)
    (hp : getPost db postId = some post) (hm : req.method = .post)
    (hs : check_secret_key req.secret_key = true) (hv : validate req = true)
    (hany : req.files.any (fun f => f.filename != "") = true)
    (hrej : ∀ f ∈ req.files, f.filename ≠ "" →
      allowed_file f.filename = false ∨ f.uploadOk = false) :
    (edit_post env postId req db).1.media.filter
      (fun m => m.post_id == postId) = [] ∧
    ∀ m ∈ db.media, m.post_id = postId →
      m ∉ (edit_post env postId req db).1.media := by
  have hnone : ∀ f ∈ req.files, (processFile env f).1 = none := by
    intro f hf
    by_cases hn : f.filename = ""
    · rw [processFile_empty hn]
    · rcases hrej f hf hn with h | h
      · rw [processFile_disallowed hn h]
      · cases ha : allowed_file f.filename with
        | false => rw [processFile_disallowed hn ha]
        | true => rw [processFile_upload_failed hn ha h]
  have hsf : successfulFiles env req.files = [] := by
    unfold successfulFiles
    rw [List.filter_eq_nil_iff]
    intro f hf
    rw [hnone f hf]
    simp
  have hrows : (uploadLoop env postId db.nextMediaId req.files).1 = [] := by
    rw [← List.length_eq_zero, uploadLoop_length, hsf]
    rfl
  rw [edit_post_replace hp hm hs hv hany]
  dsimp only
  rw [hrows, List.append_nil]
  refine ⟨filter_ne_filter_eq_nil db.media postId, ?_⟩
  intro m hmem hmp hcon
  have h2 := (List.mem_filter.mp hcon).2
  simp [hmp] at h2

theorem C8_witness :
    (edit_post ⟨none⟩ 1 ⟨Method.post, some "moo", "T", "C",
        [⟨"x.exe", true⟩, ⟨"c.gif", false⟩]⟩
      ⟨[⟨1, "t", "c"⟩], [⟨1, 1, "u"⟩], 2, 2⟩).1.media.filter
        (fun m => m.post_id == 1) = [] :=
  (C8_all_files_rejected_edit ⟨none⟩
    ⟨Method.post, some "moo", "T", "C", [⟨"x.exe", true⟩, ⟨"c.gif", false⟩]⟩
    ⟨[⟨1, "t", "c"⟩], [⟨1, 1, "u"⟩], 2, 2⟩ 1 ⟨1, "t", "c"⟩
    (by decide) rfl (by decide) (by decide) (by decide) (by decide)).1

/-- Claim C5: for an existing post, an update submission whose title (or
content) is absent or empty fails validation — the handler flashes the
field-level validation errors and re-renders the edit form — and the
database, in particular the post's stored title and content, is
unchanged. An absent text field reads as the empty string. -/
theorem C5_empty_field_no_mutation (env : Env) (req : Request) (db : DB)
    (postId : Nat) (post : Post) (hp : getPost db postId = some post)
    (hm : req.method = .post) (hs : check_secret_key req.secret_key = true)
    (hbad : req.title = "" ∨ req.content = "") :
    edit_post env postId req db
      = (db, Response.editForm postId, [Notice.validationErrors]) := by
  have he : dataRequired "" = false := by decide
  have hv : validate req = false := by
    rcases hbad with h | h <;> simp [validate, h, he]
  exact edit_post_invalid hp hm hs hv

theorem C5_witness :
    edit_post ⟨none⟩ 1 ⟨Method.post, some "moo", "", "x", []⟩
        ⟨[⟨1, "t", "c"⟩], [], 2, 1⟩
      = (⟨[⟨1, "t", "c"⟩], [], 2, 1⟩, Response.editForm 1,
         [Notice.validationErrors]) :=
  C5_empty_field_no_mutation ⟨none⟩ ⟨Method.post, some "moo", "", "x", []⟩
    ⟨[⟨1, "t", "c"⟩], [], 2, 1⟩ 1 ⟨1, "t", "c"⟩ (by decide) rfl (by decide)
    (Or.inl rfl)

/-- Claim C6: for an existing post id, a POST delete with the correct
secret removes the post and cascades deletion of every `PostMedia` row
owned by it: a subsequent lookup of the id finds nothing, no media row
with that `post_id` remains, and the handler redirects to the index. -/
theorem C6_delete_cascades (req : Request) (db : DB) (postId : Nat)
    (post : Post) (hp : getPost db postId = some post)
    (hm : req.method = .post) (hs : check_secret_key req.secret_key = true) :
    getPost (delete_post postId req db).1 postId = none ∧
    (delete_post postId req db).1.media.filter (fun m => m.post_id == postId) = [] ∧
    (delete_post postId req db).2.1 = Response.redirectIndex := by
  rw [delete_post_success hp hm hs]
  refine ⟨?_, ?_, rfl⟩
  · unfold getPost
    dsimp only
    rw [List.find?_eq_none]
    intro p hp'
    have h2 := (List.mem_filter.mp hp').2
    simp only [bne_iff_ne, ne_eq] at h2
    simp [h2]
  · exact filter_ne_filter_eq_nil db.media postId

theorem C6_witness :
    getPost (delete_post 1 ⟨Method.post, some "moo", "", "", []⟩
        ⟨[⟨1, "t", "c"⟩], [⟨1, 1, "u"⟩, ⟨2, 1, "v"⟩], 2, 3⟩).1 1 = none :=
  (C6_delete_cascades ⟨Method.post, some "moo", "", "", []⟩
    ⟨[⟨1, "t", "c"⟩], [⟨1, 1, "u"⟩, ⟨2, 1, "v"⟩], 2, 3⟩ 1 ⟨1, "t", "c"⟩
    (by decide) rfl (by decide)).1

/-- Claim C9: an attached file part whose filename is empty is skipped
silently during add and edit: the per-file step yields no URL to persist
and flashes nothing, and the upload loop over a list starting with such a
file equals the loop over the remaining files — whereas a file with a
non-empty filename and a disallowed extension yields no URL but does
flash an invalid-file-type notice. -/
theorem C9_empty_filename_skipped (env : Env) (pid s : Nat)
    (fs : List MediaFile) (f : MediaFile) (hf : f.filename = "") :
    processFile env f = (none, []) ∧
    uploadLoop env pid s (f :: fs) = uploadLoop env pid s fs ∧
    (∀ g : MediaFile, g.filename ≠ "" → allowed_file g.filename = false →
      processFile env g = (none, [Notice.invalidFileType g.filename])) := by
  have h0 : processFile env f = (none, []) := processFile_empty hf
  refine ⟨h0, ?_, fun g hn ha => processFile_disallowed hn ha⟩
  rw [uploadLoop_cons_none (by rw [h0]), h0]
  simp

theorem C9_witness :
    processFile ⟨none⟩ ⟨"", true⟩ = (none, []) :=
  (C9_empty_filename_skipped ⟨none⟩ 1 1 [] ⟨"", true⟩ rfl).1

/-- Claim C10: a mutating POST request that omits the secret field
entirely is denied exactly like one carrying a wrong secret: the absent
value (`None`) compares unequal to the configured secret, the gate
returns false, and none of the three handlers mutates the database. -/
theorem C10_missing_secret_denied (env : Env) (req : Request) (db : DB)
    (pid : Nat) (hm : req.method = .post) (hs : req.secret_key = none) :
    check_secret_key none = false ∧
    (add_post env req db).1 = db ∧
    (edit_post env pid req db).1 = db ∧
    (delete_post pid req db).1 = db := by
  have hf : check_secret_key req.secret_key = false := by rw [hs]; rfl
  refine ⟨rfl, ?_, ?_, ?_⟩
  · rw [add_post_denied hm hf]
  · cases hp : getPost db pid with
    | none => rw [edit_post_not_found hp]
    | some post => rw [edit_post_denied hp hm hf]
  · cases hp : getPost db pid with
    | none => rw [delete_post_not_found hp]
    | some post => rw [delete_post_denied hp hm hf]

theorem C10_witness :
    (add_post ⟨none⟩ ⟨Method.post, none, "T", "C", [⟨"a.png", true⟩]⟩
        ⟨[⟨1, "t", "c"⟩], [⟨1, 1, "u"⟩], 2, 2⟩).1
      = ⟨[⟨1, "t", "c"⟩], [⟨1, 1, "u"⟩], 2, 2⟩ :=
  (C10_missing_secret_denied ⟨none⟩ ⟨Method.post, none, "T", "C", [⟨"a.png", true⟩]⟩
    ⟨[⟨1, "t", "c"⟩], [⟨1, 1, "u"⟩], 2, 2⟩ 1 rfl rfl).2.1

end Pinkilily
